import Mathlib

/-!
Verification development for the `ln-ai-network` control plane.

Shallow embedding of the core components (durable queue, scheduler,
dual token-bucket rate limiter, deterministic backoff / circuit breaker,
subprocess RPC client, tool-error normalizer) as pure Lean functions.
Python floats used for monotonic clock readings and token counts are
modelled by exact rationals; Python ints by `Int`/`Nat`.  Wall-clock
reads (`time.monotonic()`) become explicit `now` parameters, and
methods that mutate `self` become state-passing functions.
-/

set_option linter.unusedVariables false

/-! Model of `ai/core/rate_limiter.py`. -/

structure Bucket where
  capacity : ℚ
  refill_per_s : ℚ
  tokens : ℚ
  last_t : ℚ
deriving DecidableEq

def Bucket.refill (b : Bucket) (now : ℚ) : Bucket :=
  let dt := max 0 (now - b.last_t)
  { b with tokens := min b.capacity (b.tokens + dt * b.refill_per_s), last_t := now }

def Bucket.can_spend (b : Bucket) (amount : ℚ) (now : ℚ) : Bool × Bucket :=
  let b' := b.refill now
  (amount ≤ b'.tokens, b')

def Bucket.spend (b : Bucket) (amount : ℚ) (now : ℚ) : Except String Bucket :=
  let b' := b.refill now
  if b'.tokens < amount then .error "Bucket underflow (logic error)"
  else .ok { b' with tokens := b'.tokens - amount }

structure DualRateLimiter where
  req : Bucket
  tok : Bucket
  min_interval_s : ℚ
  next_allowed_time : ℚ
deriving DecidableEq

def mkDualRateLimiter (rpm tpm min_interval_ms : ℤ) (now : ℚ) : DualRateLimiter :=
  let rpm' : ℤ := max 1 rpm
  let tpm' : ℤ := max 1 tpm
  let mi : ℤ := max 0 min_interval_ms
  { req := { capacity := (rpm' : ℚ), refill_per_s := (rpm' : ℚ) / 60,
             tokens := (rpm' : ℚ), last_t := now }
    tok := { capacity := (tpm' : ℚ), refill_per_s := (tpm' : ℚ) / 60,
             tokens := (tpm' : ℚ), last_t := now }
    min_interval_s := (mi : ℚ) / 1000
    next_allowed_time := now }

def DualRateLimiter.allowed (rl : DualRateLimiter) (now : ℚ)
    (estimated_total_tokens : ℤ) : Bool × DualRateLimiter :=
  if now < rl.next_allowed_time then (false, rl)
  else
    let p1 := rl.req.can_spend 1 now
    if !p1.1 then (false, { rl with req := p1.2 })
    else
      let p2 := rl.tok.can_spend ((max 1 estimated_total_tokens : ℤ) : ℚ) now
      if !p2.1 then (false, { rl with req := p1.2, tok := p2.2 })
      else (true, { rl with req := p1.2, tok := p2.2 })

def DualRateLimiter.spend (rl : DualRateLimiter) (now : ℚ)
    (estimated_total_tokens : ℤ) : Except String DualRateLimiter :=
  match rl.req.spend 1 now with
  | .error e => .error e
  | .ok req' =>
    match rl.tok.spend ((max 1 estimated_total_tokens : ℤ) : ℚ) now with
    | .error e => .error e
    | .ok tok' =>
      .ok { req := req', tok := tok', min_interval_s := rl.min_interval_s,
            next_allowed_time := max rl.next_allowed_time (now + rl.min_interval_s) }

/-! Model of `ai/core/backoff.py`.  CPython's `hash` on a nonnegative
`int` below `2^61 - 1` is the value reduced modulo `2^61 - 1`; `step_id`
values are nonnegative ints, so the jitter source is modelled by
`pyHash`. -/

def pyHash (n : ℕ) : ℕ := n % (2 ^ 61 - 1)

structure BackoffState where
  attempt : ℕ
  blocked_until : ℚ
  circuit_open_until : ℚ
  consecutive_failures : ℕ
deriving DecidableEq

structure DeterministicBackoff where
  base_ms : ℕ
  max_ms : ℕ
  jitter_ms : ℕ
  cb_after : ℕ
  cb_open_s : ℚ
  state : BackoffState
deriving DecidableEq

def mkDeterministicBackoff (base_ms max_ms jitter_ms circuit_breaker_after
    circuit_breaker_open_ms : ℤ) : DeterministicBackoff :=
  { base_ms := (max 1 base_ms).toNat
    max_ms := (max 1 max_ms).toNat
    jitter_ms := (max 0 jitter_ms).toNat
    cb_after := (max 1 circuit_breaker_after).toNat
    cb_open_s := ((max 1 circuit_breaker_open_ms : ℤ) : ℚ) / 1000
    state := ⟨0, 0, 0, 0⟩ }

def DeterministicBackoff.blocked (b : DeterministicBackoff) (now : ℚ) : Bool :=
  decide (now < max b.state.blocked_until b.state.circuit_open_until)

def DeterministicBackoff.note_success (b : DeterministicBackoff) : DeterministicBackoff :=
  { b with state := { b.state with attempt := 0, consecutive_failures := 0, blocked_until := 0 } }

def DeterministicBackoff.jitterOf (b : DeterministicBackoff) (step_id : ℕ) : ℕ :=
  if 0 < b.jitter_ms then pyHash step_id % (b.jitter_ms + 1) else 0

def DeterministicBackoff.note_failure (b : DeterministicBackoff) (now : ℚ) (step_id : ℕ)
    (retry_after_s : Option ℚ) : DeterministicBackoff :=
  let attempt' := b.state.attempt + 1
  let consec' := b.state.consecutive_failures + 1
  let expDelay := min b.max_ms (b.base_ms * 2 ^ (attempt' - 1))
  let jitter := b.jitterOf step_id
  let delay_s : ℚ := ((expDelay + jitter : ℕ) : ℚ) / 1000
  let delay_s' : ℚ :=
    match retry_after_s with
    | some r => max delay_s r
    | Option.none => delay_s
  let blocked' := max b.state.blocked_until (now + delay_s')
  if b.cb_after ≤ consec' then
    { b with state :=
        { attempt := 0, consecutive_failures := 0, blocked_until := blocked'
          circuit_open_until := max b.state.circuit_open_until (now + b.cb_open_s) } }
  else
    { b with state :=
        { b.state with attempt := attempt', consecutive_failures := consec'
                       blocked_until := blocked' } }

/-- Delay computed by one `note_failure` call from state `b`: the capped
exponential term plus the deterministic jitter, overridden upward by a
`retry_after_s` hint when present.  Mirrors lines 53-58 of
`backoff.py`. -/
def noteFailureDelay (b : DeterministicBackoff) (step_id : ℕ) (hint : Option ℚ) : ℚ :=
  let computed : ℚ :=
    ((min b.max_ms (b.base_ms * 2 ^ (b.state.attempt + 1 - 1)) + b.jitterOf step_id : ℕ) : ℚ)
      / 1000
  match hint with
  | some r => max computed r
  | Option.none => computed

/-- Feeds a sequence of `(now, step_id, retry_after)` failure events to a
backoff instance. -/
def runFailures (b : DeterministicBackoff) : List (ℚ × ℕ × Option ℚ) → DeterministicBackoff
  | [] => b
  | (now, sid, hint) :: rest => runFailures (b.note_failure now sid hint) rest

/-! Model of `ai/core/scheduler.py`. -/

structure DeterministicScheduler where
  cadence_s : ℚ
  t0 : ℚ
  k : ℕ
deriving DecidableEq

def mkDeterministicScheduler (tick_ms : ℤ) (now : ℚ) :
    Except String DeterministicScheduler :=
  if tick_ms ≤ 0 then .error "tick_ms must be > 0"
  else .ok { cadence_s := (tick_ms : ℚ) / 1000, t0 := now, k := 0 }

def DeterministicScheduler.next_tick_time (s : DeterministicScheduler) : ℚ :=
  s.t0 + (s.k : ℚ) * s.cadence_s

/-- Executes one `wait_next_tick` call entered at monotonic time `now`:
returns the absolute time at which the caller resumes (now plus the
computed sleep) and the updated scheduler. -/
def DeterministicScheduler.wait_next_tick (s : DeterministicScheduler) (now : ℚ) :
    ℚ × DeterministicScheduler :=
  let target := s.next_tick_time
  let sleep_s := max 0 (target - now)
  (now + sleep_s, { s with k := s.k + 1 })

/-- Runs a sequence of `wait_next_tick` calls, one per entry time in the
list, returning the list of resume times. -/
def runTicks (s : DeterministicScheduler) : List ℚ → List ℚ × DeterministicScheduler
  | [] => ([], s)
  | now :: rest =>
    let p := s.wait_next_tick now
    let q := runTicks p.2 rest
    (p.1 :: q.1, q.2)

/-! Python value model: the subset of Python values that can appear in
the JSON-shaped tool results handled by `ai/agent.py` and in the RPC
messages of `mcp/client/fastmcp.py`. -/

inductive PyVal where
  | none
  | bool (b : Bool)
  | int (n : ℤ)
  | str (s : String)
  | list (xs : List PyVal)
  | dict (kvs : List (String × PyVal))

/-- Python dictionary lookup `d.get(k)` over a well-formed (duplicate-free)
key/value list. -/
def dGet (kvs : List (String × PyVal)) (k : String) : Option PyVal :=
  (kvs.find? (fun p => p.1 == k)).map (fun p => p.2)

/-- Python truthiness of a value (`if err:` style tests). -/
def truthy : PyVal → Bool
  | .none => false
  | .bool b => b
  | .int n => n != 0
  | .str s => s != ""
  | .list xs => !xs.isEmpty
  | .dict kvs => !kvs.isEmpty

mutual

/-- Python `repr` of a value, for the subset modelled here. -/
def pyRepr : PyVal → String
  | .none => "None"
  | .bool true => "True"
  | .bool false => "False"
  | .int n => toString n
  | .str s => String.singleton (Char.ofNat 39) ++ s ++ String.singleton (Char.ofNat 39)
  | .list xs => "[" ++ String.intercalate ", " (pyReprList xs) ++ "]"
  | .dict kvs => "\x7b" ++ String.intercalate ", " (pyReprDict kvs) ++ "\x7d"

def pyReprList : List PyVal → List String
  | [] => []
  | x :: xs => pyRepr x :: pyReprList xs

def pyReprDict : List (String × PyVal) → List String
  | [] => []
  | (k, v) :: kvs =>
    (String.singleton (Char.ofNat 39) ++ k ++ String.singleton (Char.ofNat 39) ++ ": "
      ++ pyRepr v) :: pyReprDict kvs

end

/-- Python `str(v)`: identity on strings, `repr` otherwise. -/
def pyStr : PyVal → String
  | .str s => s
  | v => pyRepr v

/-- Characters stripped by Python `str.strip()` for the ASCII range used
by this code base. -/
def isPySpace (c : Char) : Bool :=
  c == ' ' || c == '\t' || c == '\n' || c == '\r' || c == Char.ofNat 11 || c == Char.ofNat 12

def pyStripL (l : List Char) : List Char :=
  ((l.dropWhile isPySpace).reverse.dropWhile isPySpace).reverse

/-- Python `s.strip()`. -/
def pyStrip (s : String) : String := String.mk (pyStripL s.data)

/-! Model of `_is_tool_error` from `ai/agent.py`.  The source inlines
three shape checks in order; `topErrorMsg` is the first (a top-level
`"error"` key holding a non-empty-after-strip string) and `okFalseMsg`
the second (`result.get("ok") is False`).  The same two checks are then
applied to a nested `"result"` dict. -/

/-- First shape check of `_is_tool_error`: `"error" in result and
isinstance(result["error"], str) and result["error"].strip()`, returning
the stripped message. -/
def topErrorMsg (kvs : List (String × PyVal)) : Option String :=
  match dGet kvs "error" with
  | some (.str s) => if pyStrip s ≠ "" then some (pyStrip s) else Option.none
  | _ => Option.none

/-- Second shape check of `_is_tool_error`: `result.get("ok") is False`,
returning `str(err)` for a truthy `err = result.get("error")` and the
synthesized default message otherwise. -/
def okFalseMsg (kvs : List (String × PyVal)) : Option String :=
  match dGet kvs "ok" with
  | some (.bool false) =>
    match dGet kvs "error" with
    | some err => if truthy err then some (pyStr err) else some "Tool returned ok=false"
    | Option.none => some "Tool returned ok=false"
  | _ => Option.none

/-- Model of `_is_tool_error(result)`: `some msg` for the Python return
of a message string, `none` for the Python `None`. -/
def isToolError : PyVal → Option String
  | .dict kvs =>
    match topErrorMsg kvs with
    | some m => some m
    | Option.none =>
      match okFalseMsg kvs with
      | some m => some m
      | Option.none =>
        match dGet kvs "result" with
        | some (.dict inner) =>
          match topErrorMsg inner with
          | some m => some m
          | Option.none => okFalseMsg inner
        | _ => Option.none
  | _ => Option.none

/-! Model of `mcp/client/fastmcp.py` (`FastMCPClient`).  The worker
subprocess is modelled by its observable behaviour at the pipe
boundary: whether `poll()` reports an exit, the sequence of response
lines still to be produced on stdout (already JSON-decoded; a decode
failure is outside the claims modelled here), and the captured stderr
text.  `call` threads the client state explicitly. -/

structure FastMCPClient where
  idCounter : ℕ
  procExited : Bool
  stdoutLines : List PyVal
  stderrText : String
  sentRequests : List (ℕ × String × PyVal)

inductive MCPCallError where
  | processExitedEarly (stderr : String)
  | noResponse (stderr : String)
deriving DecidableEq

/-- Model of `FastMCPClient.call`: bumps the correlation id, writes and
flushes the request line, detects early worker exit, reads exactly one
response line (an empty read is a worker failure), and returns the
deserialized response. -/
def FastMCPClient.call (st : FastMCPClient) (method : String) (params : PyVal) :
    Except MCPCallError (PyVal × FastMCPClient) :=
  let newId := st.idCounter + 1
  let st' := { st with idCounter := newId,
                       sentRequests := st.sentRequests ++ [(newId, method, params)] }
  if st'.procExited then .error (.processExitedEarly st'.stderrText)
  else
    match st'.stdoutLines with
    | [] => .error (.noResponse st'.stderrText)
    | resp :: rest => .ok (resp, { st' with stdoutLines := rest })

/-! Model of `ai/command_queue.py`.

The inbox file is a byte string (one `Char` per byte; the records this
repository writes are newline-terminated).  `read_new` is parameterized
by the record parser standing for `json.loads` composed with the
`isinstance(obj, dict)` filter: a `Option.none` result is a malformed or
non-dict line, skipped deterministically. -/

/-- Accumulator-passing core of Python `bytes.splitlines()`: splits on
LF, CR and CRLF, with no trailing empty line when the data ends in a
line break. -/
def splitlinesGo (acc : List Char) : List Char → List (List Char)
  | [] => if acc.isEmpty then [] else [acc.reverse]
  | '\r' :: '\n' :: rest => acc.reverse :: splitlinesGo [] rest
  | '\r' :: rest => acc.reverse :: splitlinesGo [] rest
  | '\n' :: rest => acc.reverse :: splitlinesGo [] rest
  | c :: rest => splitlinesGo (c :: acc) rest

/-- Python `data.splitlines()` on bytes. -/
def pySplitlines (data : List Char) : List (List Char) := splitlinesGo [] data

/-- Consumer-side queue state: the inbox file contents and the persisted
byte cursor from the offset file. -/
structure QueueState where
  inbox : List Char
  offset : ℕ

/-- Model of `read_new()`: reads from the persisted byte offset to
end-of-file, splits into lines, keeps the lines `parse` accepts, and
advances the offset by the byte length of the data read (the early
return on empty data leaves the offset file unwritten, which is
observationally the same offset). -/
def read_new {E : Type} (parse : List Char → Option E) (st : QueueState) :
    List E × QueueState :=
  let data := st.inbox.drop st.offset
  if data.isEmpty then ([], st)
  else ((pySplitlines data).filterMap parse, { st with offset := st.offset + data.length })

/-- Appends newline-terminated lines to the inbox (the writer side of
the log as seen by the consumer between two drains). -/
def encodeLines (ls : List (List Char)) : List Char :=
  (ls.map (fun l => l ++ ['\n'])).flatten

def appendLines (st : QueueState) (ls : List (List Char)) : QueueState :=
  { st with inbox := st.inbox ++ encodeLines ls }

/-- Alternates appends of whole newline-terminated lines with
`read_new` calls and concatenates everything the drains return. -/
def runDrains {E : Type} (parse : List Char → Option E) (st : QueueState) :
    List (List (List Char)) → List E × QueueState
  | [] => ([], st)
  | batch :: rest =>
    let p := read_new parse (appendLines st batch)
    let q := runDrains parse p.2 rest
    (p.1 ++ q.1, q.2)

/-! Producer side of `ai/command_queue.py`: `_next_id` and `enqueue`.
The counter file contents are modelled as the byte string they hold;
`int(raw)` is modelled by a decimal parser (`parsePyInt`) and `str(n)`
by a decimal printer (`intToDecimal`).  The advisory-lock / write /
flush / fsync sequence each call performs is recorded as an event
trace. -/

def digitChar (d : ℕ) : Char := Char.ofNat (48 + d)

def natToDecimal (n : ℕ) : List Char :=
  if n = 0 then ['0'] else ((Nat.digits 10 n).map digitChar).reverse

def intToDecimal (n : ℤ) : List Char :=
  if n < 0 then '-' :: natToDecimal (-n).toNat else natToDecimal n.toNat

def isDigitChar (c : Char) : Bool := 48 ≤ c.toNat && c.toNat ≤ 57

def charDigitVal (c : Char) : ℕ := c.toNat - 48

def parseNatDigits (l : List Char) : Option ℕ :=
  if l.isEmpty then Option.none
  else if l.all isDigitChar then some (Nat.ofDigits 10 ((l.map charDigitVal).reverse))
  else Option.none

/-- Model of Python `int(s)` on an already-stripped string: optional
sign followed by decimal digits. -/
def parsePyInt (l : List Char) : Option ℤ :=
  match l with
  | [] => Option.none
  | c :: rest =>
    if c = '-' then (parseNatDigits rest).map (fun n => -(n : ℤ))
    else if c = '+' then (parseNatDigits rest).map (fun n => (n : ℤ))
    else (parseNatDigits l).map (fun n => (n : ℤ))

/-- Model of `_next_id()`: reads and strips the counter file, parses it
with fallback 0 (empty contents read as "0", unparsable contents as 0),
increments, and writes the decimal rendering back.  Returns the
assigned id and the new counter file contents. -/
def nextId (counter : List Char) : ℤ × List Char :=
  let raw := pyStripL counter
  let s := if raw.isEmpty then ['0'] else raw
  let n : ℤ := (parsePyInt s).getD 0
  (n + 1, intToDecimal (n + 1))

inductive QueueEvent where
  | lockCounter | writeCounter | fsyncCounter | unlockCounter
  | lockInbox | appendInbox | fsyncInbox | unlockInbox
deriving DecidableEq

/-- Primitive file operations `_next_id` performs, in order. -/
def nextIdTrace : List QueueEvent :=
  [.lockCounter, .writeCounter, .fsyncCounter, .unlockCounter]

structure QueueMsg where
  id : ℤ
  ts : ℤ
  role : String
  content : String
  meta : List (String × PyVal)

/-- Producer-side queue state: counter file bytes and the inbound log
viewed as the sequence of records appended to it. -/
structure CQState where
  counter : List Char
  inbox : List QueueMsg

/-- Model of `enqueue(content, meta)`: assigns the next id from the
persisted counter, builds the message record, and appends its
serialized line to the inbox under lock with flush and fsync before
returning.  Returns the message, the new state and the ordered trace of
file operations performed. -/
def enqueue (st : CQState) (now : ℤ) (content : String)
    (meta : List (String × PyVal)) : QueueMsg × CQState × List QueueEvent :=
  let p := nextId st.counter
  let msg : QueueMsg := { id := p.1, ts := now, role := "user", content := content, meta := meta }
  (msg, { counter := p.2, inbox := st.inbox ++ [msg] },
   nextIdTrace ++ [.lockInbox, .appendInbox, .fsyncInbox, .unlockInbox])

/-- Runs a sequence of `enqueue` calls and collects the assigned ids. -/
def runEnqueues (st : CQState) : List (ℤ × String) → List ℤ × CQState
  | [] => ([], st)
  | (now, content) :: rest =>
    let p := enqueue st now content []
    let q := runEnqueues p.2.1 rest
    (p.1.id :: q.1, q.2)

/-! Theorems about the embedded program. -/

/-- Claim C7: the error normalizer checks shapes in fixed precedence
order — top-level error first, top-level `ok=false` second, the nested
`result` dict inspected only when the top level carries neither — and on
the four reference inputs it signals an error with messages "x", "y",
"z" and the synthesized default message respectively. -/
theorem isToolError_precedence_and_cases :
    (∀ kvs m, topErrorMsg kvs = some m → isToolError (.dict kvs) = some m) ∧
    (∀ kvs m, topErrorMsg kvs = Option.none → okFalseMsg kvs = some m →
      isToolError (.dict kvs) = some m) ∧
    (∀ kvs, topErrorMsg kvs = Option.none → okFalseMsg kvs = Option.none →
      isToolError (.dict kvs) =
        (match dGet kvs "result" with
         | some (.dict inner) =>
           (match topErrorMsg inner with
            | some m => some m
            | Option.none => okFalseMsg inner)
         | _ => Option.none)) ∧
    isToolError (.dict [("error", .str "x")]) = some "x" ∧
    isToolError (.dict [("ok", .bool false), ("error", .str "y")]) = some "y" ∧
    isToolError (.dict [("result", .dict [("error", .str "z")])]) = some "z" ∧
    isToolError (.dict [("result", .dict [("ok", .bool false)])]) =
      some "Tool returned ok=false" := by
  refine ⟨?_, ?_, ?_, rfl, rfl, rfl, rfl⟩
  · intro kvs m h
    simp [isToolError, h]
  · intro kvs m h1 h2
    simp [isToolError, h1, h2]
  · intro kvs h1 h2
    simp [isToolError, h1, h2]

/-- Witness for C7: the precedence conjuncts applied at concrete
inputs. -/
theorem isToolError_precedence_and_cases_witness :
    isToolError (.dict [("error", .str "w"), ("result", .dict [("error", .str "q")])])
      = some "w" ∧
    isToolError (.dict [("ok", .bool false), ("result", .dict [("error", .str "q")])])
      = some "Tool returned ok=false" ∧
    isToolError (.dict [("kind", .str "pay"), ("result", .dict [("error", .str "q")])])
      = some "q" :=
  ⟨isToolError_precedence_and_cases.1
     [("error", .str "w"), ("result", .dict [("error", .str "q")])] "w" rfl,
   isToolError_precedence_and_cases.2.1
     [("ok", .bool false), ("result", .dict [("error", .str "q")])]
     "Tool returned ok=false" rfl rfl,
   (isToolError_precedence_and_cases.2.2.1
     [("kind", .str "pay"), ("result", .dict [("error", .str "q")])] rfl rfl).trans rfl⟩

/-- Claim C10: a top-level `"error"` key holding a non-string value, or
a string that is empty after stripping, is not treated as a top-level
error: evaluation falls through to the `ok=false` check and then to the
nested `result` shapes; in particular
`\x7b"error": "", "result": \x7b"error": "z"\x7d\x7d` normalizes to the
message "z" and `\x7b"error": ""\x7d` alone is not an error. -/
theorem isToolError_skips_invalid_top_error :
    (∀ kvs v, dGet kvs "error" = some v →
      (∀ s, v = .str s → pyStrip s = "") →
      topErrorMsg kvs = Option.none) ∧
    (∀ kvs v, dGet kvs "error" = some v →
      (∀ s, v = .str s → pyStrip s = "") →
      isToolError (.dict kvs) =
        (match okFalseMsg kvs with
         | some m => some m
         | Option.none =>
           match dGet kvs "result" with
           | some (.dict inner) =>
             (match topErrorMsg inner with
              | some m => some m
              | Option.none => okFalseMsg inner)
           | _ => Option.none)) ∧
    isToolError (.dict [("error", .str ""), ("result", .dict [("error", .str "z")])])
      = some "z" ∧
    isToolError (.dict [("error", .str "")]) = Option.none := by
  have htop : ∀ kvs v, dGet kvs "error" = some v →
      (∀ s, v = .str s → pyStrip s = "") → topErrorMsg kvs = Option.none := by
    intro kvs v h hs
    unfold topErrorMsg
    rw [h]
    cases v with
    | str s => simp [hs s rfl]
    | none => rfl
    | bool b => rfl
    | int n => rfl
    | list xs => rfl
    | dict kvs' => rfl
  refine ⟨htop, ?_, rfl, rfl⟩
  intro kvs v h hs
  simp [isToolError, htop kvs v h hs]

/-- Witness for C10: the fall-through conjuncts applied at concrete
inputs with a non-string and an all-whitespace top-level error value. -/
theorem isToolError_skips_invalid_top_error_witness :
    topErrorMsg [("error", .int 7)] = Option.none ∧
    isToolError (.dict [("error", .str "  "), ("ok", .bool false)]) = some "  " :=
  ⟨isToolError_skips_invalid_top_error.1 [("error", .int 7)] (.int 7) rfl
     (fun s h => by cases h),
   (isToolError_skips_invalid_top_error.2.1 [("error", .str "  "), ("ok", .bool false)]
     (.str "  ") rfl (fun s h => by cases h; rfl)).trans rfl⟩

/-- Claim C2 counterexample: `call` succeeds and hands back a response
whose `"id"` field (999) differs from the correlation id it assigned to
the request (1) — no matching of the response id against the request id
takes place, so the claim as stated fails at this input. -/
theorem call_returns_mismatched_id :
    FastMCPClient.call ⟨0, false, [.dict [("id", .int 999)]], "boom", []⟩
        "getinfo" (.dict [])
      = .ok (.dict [("id", .int 999)], ⟨1, false, [], "boom", [(1, "getinfo", .dict [])]⟩) ∧
    dGet [("id", .int 999)] "id" = some (.int 999) ∧ (999 : ℤ) ≠ 1 := by
  refine ⟨rfl, rfl, by decide⟩

/-- Claim C2 (amended): every `call` assigns the next monotonically
increasing correlation id and appends the flushed request line; if the
worker has already exited it fails with a process-exited error carrying
the captured stderr; an empty response read fails with a worker-failure
error carrying the captured stderr; otherwise exactly one response line
is read, deserialized, and returned — without being matched against the
request's correlation id. -/
theorem call_spec (st : FastMCPClient) (method : String) (params : PyVal) :
    (∀ resp st', st.call method params = .ok (resp, st') →
      st'.idCounter = st.idCounter + 1 ∧
      st'.sentRequests = st.sentRequests ++ [(st.idCounter + 1, method, params)] ∧
      st.stdoutLines = resp :: st'.stdoutLines) ∧
    (st.procExited = true →
      st.call method params = .error (.processExitedEarly st.stderrText)) ∧
    (st.procExited = false → st.stdoutLines = [] →
      st.call method params = .error (.noResponse st.stderrText)) ∧
    (st.procExited = false → ∀ resp rest, st.stdoutLines = resp :: rest →
      st.call method params =
        .ok (resp, { st with idCounter := st.idCounter + 1,
                             sentRequests := st.sentRequests ++ [(st.idCounter + 1, method, params)],
                             stdoutLines := rest })) := by
  refine ⟨?_, ?_, ?_, ?_⟩
  · intro resp st' h
    unfold FastMCPClient.call at h
    cases hp : st.procExited with
    | true => simp [hp] at h
    | false =>
      cases hs : st.stdoutLines with
      | nil => simp [hp, hs] at h
      | cons r rest =>
        simp [hp, hs] at h
        obtain ⟨h1, h2⟩ := h
        subst h1
        subst h2
        simp [hs]
  · intro hp
    unfold FastMCPClient.call
    simp [hp]
  · intro hp hs
    unfold FastMCPClient.call
    simp [hp, hs]
  · intro hp resp rest hs
    unfold FastMCPClient.call
    simp [hp, hs]

/-- Witness for C2 (amended): the three behaviours applied to concrete
client states. -/
theorem call_spec_witness :
    (FastMCPClient.call ⟨4, true, [], "crashed", []⟩ "ping" PyVal.none
      = .error (.processExitedEarly "crashed")) ∧
    (FastMCPClient.call ⟨4, false, [], "silent", []⟩ "ping" PyVal.none
      = .error (.noResponse "silent")) ∧
    (FastMCPClient.call ⟨4, false, [.str "pong"], "", []⟩ "ping" PyVal.none
      = .ok (.str "pong", ⟨5, false, [], "", [(5, "ping", PyVal.none)]⟩)) :=
  ⟨(call_spec ⟨4, true, [], "crashed", []⟩ "ping" PyVal.none).2.1 rfl,
   (call_spec ⟨4, false, [], "silent", []⟩ "ping" PyVal.none).2.2.1 rfl rfl,
   (call_spec ⟨4, false, [.str "pong"], "", []⟩ "ping" PyVal.none).2.2.2 rfl
     (.str "pong") [] rfl⟩

/-! Helper lemmas about `note_failure`. -/

lemma note_failure_state_cb (b : DeterministicBackoff) (now : ℚ) (sid : ℕ)
    (hint : Option ℚ) (h : b.cb_after ≤ b.state.consecutive_failures + 1) :
    (b.note_failure now sid hint).state =
      ⟨0, max b.state.blocked_until (now + noteFailureDelay b sid hint),
       max b.state.circuit_open_until (now + b.cb_open_s), 0⟩ := by
  cases hint <;>
    simp [DeterministicBackoff.note_failure, noteFailureDelay, h]

lemma note_failure_state_no_cb (b : DeterministicBackoff) (now : ℚ) (sid : ℕ)
    (hint : Option ℚ) (h : b.state.consecutive_failures + 1 < b.cb_after) :
    (b.note_failure now sid hint).state =
      ⟨b.state.attempt + 1,
       max b.state.blocked_until (now + noteFailureDelay b sid hint),
       b.state.circuit_open_until, b.state.consecutive_failures + 1⟩ := by
  cases hint <;>
    simp [DeterministicBackoff.note_failure, noteFailureDelay, Nat.not_le.mpr h]

lemma note_failure_config (b : DeterministicBackoff) (now : ℚ) (sid : ℕ)
    (hint : Option ℚ) :
    (b.note_failure now sid hint).base_ms = b.base_ms ∧
    (b.note_failure now sid hint).max_ms = b.max_ms ∧
    (b.note_failure now sid hint).jitter_ms = b.jitter_ms ∧
    (b.note_failure now sid hint).cb_after = b.cb_after ∧
    (b.note_failure now sid hint).cb_open_s = b.cb_open_s := by
  refine ⟨?_, ?_, ?_, ?_, ?_⟩ <;>
    (simp only [DeterministicBackoff.note_failure]; split <;> split <;> rfl)

lemma blocked_true_iff (b : DeterministicBackoff) (t : ℚ) :
    b.blocked t = true ↔ t < max b.state.blocked_until b.state.circuit_open_until := by
  simp [DeterministicBackoff.blocked]

/-- Claim C5 counterexample: with a circuit threshold of 1, a single
`note_failure` trips the breaker inside the same call and leaves both
counters at 0, so "attempt_count and consecutive_failures are
incremented" fails for this state (1 would be the incremented value). -/
theorem note_failure_counters_not_incremented :
    ((mkDeterministicBackoff 100 1000 0 1 5000).note_failure 0 0
        Option.none).state.consecutive_failures = 0 ∧
    ((mkDeterministicBackoff 100 1000 0 1 5000).note_failure 0 0
        Option.none).state.attempt = 0 ∧
    (mkDeterministicBackoff 100 1000 0 1 5000).state.consecutive_failures + 1 = 1 ∧
    (mkDeterministicBackoff 100 1000 0 1 5000).state.attempt + 1 = 1 ∧
    (0 : ℕ) ≠ 1 := by
  refine ⟨?_, ?_, rfl, rfl, by decide⟩ <;>
    simp [mkDeterministicBackoff, DeterministicBackoff.note_failure]

/-- Claim C5 (amended): every `note_failure(correlation_key,
retry_after_hint)` call computes delay = min(max_delay, base_delay *
2^(attempt_count)) in milliseconds plus a jitter that is a pure function
of the correlation key bounded by the jitter bound; a supplied
retry_after hint raises the delay to at most max(computed, hint);
blocked_until becomes the maximum of its old value and now+delay (never
shortened); and the two counters are incremented — except that when the
incremented consecutive-failure count reaches the circuit threshold,
both counters are reset to 0 within the same call. -/
theorem note_failure_spec (b : DeterministicBackoff) (now : ℚ) (step_id : ℕ)
    (hint : Option ℚ) :
    ((b.note_failure now step_id hint).state.blocked_until
        = max b.state.blocked_until (now + noteFailureDelay b step_id hint)) ∧
    (b.state.blocked_until ≤ (b.note_failure now step_id hint).state.blocked_until) ∧
    (∀ r, noteFailureDelay b step_id (some r)
        = max (noteFailureDelay b step_id Option.none) r) ∧
    (b.jitterOf step_id ≤ b.jitter_ms) ∧
    (∀ b' : DeterministicBackoff, b'.jitter_ms = b.jitter_ms →
      b'.jitterOf step_id = b.jitterOf step_id) ∧
    (b.state.consecutive_failures + 1 < b.cb_after →
      (b.note_failure now step_id hint).state.attempt = b.state.attempt + 1 ∧
      (b.note_failure now step_id hint).state.consecutive_failures
        = b.state.consecutive_failures + 1) ∧
    (b.cb_after ≤ b.state.consecutive_failures + 1 →
      (b.note_failure now step_id hint).state.attempt = 0 ∧
      (b.note_failure now step_id hint).state.consecutive_failures = 0) := by
  refine ⟨?_, ?_, fun r => rfl, ?_, ?_, ?_, ?_⟩
  · by_cases h : b.cb_after ≤ b.state.consecutive_failures + 1
    · rw [note_failure_state_cb b now step_id hint h]
    · rw [note_failure_state_no_cb b now step_id hint (Nat.not_le.mp h)]
  · by_cases h : b.cb_after ≤ b.state.consecutive_failures + 1
    · rw [note_failure_state_cb b now step_id hint h]
      exact le_max_left _ _
    · rw [note_failure_state_no_cb b now step_id hint (Nat.not_le.mp h)]
      exact le_max_left _ _
  · unfold DeterministicBackoff.jitterOf
    split
    · exact Nat.le_of_lt_succ (Nat.mod_lt _ (Nat.succ_pos _))
    · exact Nat.zero_le _
  · intro b' h
    unfold DeterministicBackoff.jitterOf
    rw [h]
  · intro h
    rw [note_failure_state_no_cb b now step_id hint h]
    exact ⟨rfl, rfl⟩
  · intro h
    rw [note_failure_state_cb b now step_id hint h]
    exact ⟨rfl, rfl⟩

/-- Witness for C5 (amended): the characterization applied to a concrete
backoff state, both below the circuit threshold and at it. -/
theorem note_failure_spec_witness :
    ((mkDeterministicBackoff 100 1000 50 3 5000).note_failure 2 7
        Option.none).state.consecutive_failures = 1 ∧
    ((mkDeterministicBackoff 100 1000 50 3 5000).note_failure 2 7
        Option.none).state.blocked_until
      = max 0 (2 + noteFailureDelay (mkDeterministicBackoff 100 1000 50 3 5000) 7
          Option.none) :=
  ⟨((note_failure_spec (mkDeterministicBackoff 100 1000 50 3 5000) 2 7
      Option.none).2.2.2.2.2.1 (by decide)).2,
   (note_failure_spec (mkDeterministicBackoff 100 1000 50 3 5000) 2 7 Option.none).1⟩

/-- Claim C6: when the incremented consecutive-failure count reaches the
configured threshold inside `note_failure`, the circuit opens until
now+cooldown (extending, never shortening, an already-open circuit) and
both counters reset to 0; with `circuit_breaker_after=3`, after three
consecutive `note_failure` calls `blocked()` is true throughout the
cooldown window following the third call; and a single `note_success`
resets `consecutive_failures` to 0. -/
theorem circuit_breaker_spec :
    (∀ (b : DeterministicBackoff) (now : ℚ) (sid : ℕ) (hint : Option ℚ),
      b.cb_after ≤ b.state.consecutive_failures + 1 →
      (b.note_failure now sid hint).state.circuit_open_until
          = max b.state.circuit_open_until (now + b.cb_open_s) ∧
      (b.note_failure now sid hint).state.attempt = 0 ∧
      (b.note_failure now sid hint).state.consecutive_failures = 0) ∧
    (∀ (base maxd jit cbo : ℤ) (t0 t1 t2 t : ℚ) (s0 s1 s2 : ℕ),
      t < t2 + (mkDeterministicBackoff base maxd jit 3 cbo).cb_open_s →
      ((((mkDeterministicBackoff base maxd jit 3 cbo).note_failure t0 s0
          Option.none).note_failure t1 s1 Option.none).note_failure t2 s2
          Option.none).blocked t = true) ∧
    (∀ b : DeterministicBackoff, b.note_success.state.consecutive_failures = 0) := by
  have hcb : ∀ (b : DeterministicBackoff) (now : ℚ) (sid : ℕ) (hint : Option ℚ),
      b.cb_after ≤ b.state.consecutive_failures + 1 →
      (b.note_failure now sid hint).state.circuit_open_until
          = max b.state.circuit_open_until (now + b.cb_open_s) ∧
      (b.note_failure now sid hint).state.attempt = 0 ∧
      (b.note_failure now sid hint).state.consecutive_failures = 0 := by
    intro b now sid hint h
    rw [note_failure_state_cb b now sid hint h]
    exact ⟨rfl, rfl, rfl⟩
  refine ⟨hcb, ?_, fun b => rfl⟩
  intro base maxd jit cbo t0 t1 t2 t s0 s1 s2 ht
  set B := mkDeterministicBackoff base maxd jit 3 cbo with hB
  have hBcb : B.cb_after = 3 := rfl
  have hBst : B.state = ⟨0, 0, 0, 0⟩ := rfl
  set b1 := B.note_failure t0 s0 Option.none with hb1
  have hb1cfg := note_failure_config B t0 s0 Option.none
  have hb1st : b1.state = ⟨1, max 0 (t0 + noteFailureDelay B s0 Option.none), 0, 1⟩ := by
    rw [hb1, note_failure_state_no_cb B t0 s0 Option.none (by rw [hBst, hBcb]; decide),
        hBst]
  set b2 := b1.note_failure t1 s1 Option.none with hb2
  have hb2cfg := note_failure_config b1 t1 s1 Option.none
  have hb2st : b2.state.circuit_open_until = 0 ∧ b2.state.consecutive_failures = 2 := by
    rw [hb2, note_failure_state_no_cb b1 t1 s1 Option.none
      (by rw [hb1st, hb1cfg.2.2.2.1, hBcb]; norm_num), hb1st]
    exact ⟨rfl, rfl⟩
  have hb3 : (b2.note_failure t2 s2 Option.none).state.circuit_open_until
      = max 0 (t2 + B.cb_open_s) := by
    have h3 : b2.cb_after ≤ b2.state.consecutive_failures + 1 := by
      rw [hb2st.2, hb2cfg.2.2.2.1, hb1cfg.2.2.2.1, hBcb]
    rw [note_failure_state_cb b2 t2 s2 Option.none h3, hb2st.1,
        hb2cfg.2.2.2.2, hb1cfg.2.2.2.2]
  rw [blocked_true_iff]
  calc t < t2 + B.cb_open_s := ht
    _ ≤ max 0 (t2 + B.cb_open_s) := le_max_right _ _
    _ = (b2.note_failure t2 s2 Option.none).state.circuit_open_until := hb3.symm
    _ ≤ max (b2.note_failure t2 s2 Option.none).state.blocked_until
          (b2.note_failure t2 s2 Option.none).state.circuit_open_until := le_max_right _ _

/-- Witness for C6: the circuit-opening clause and the three-failure
scenario applied at concrete parameters and times. -/
theorem circuit_breaker_spec_witness :
    (((mkDeterministicBackoff 100 1000 0 1 9000).note_failure 5 0
        Option.none).state.circuit_open_until = max 0 (5 + 9) ∧
      ((mkDeterministicBackoff 100 1000 0 1 9000).note_failure 5 0
        Option.none).state.attempt = 0 ∧
      ((mkDeterministicBackoff 100 1000 0 1 9000).note_failure 5 0
        Option.none).state.consecutive_failures = 0) ∧
    ((((mkDeterministicBackoff 100 1000 0 3 9000).note_failure 1 0
        Option.none).note_failure 2 0 Option.none).note_failure 3 0
        Option.none).blocked 11 = true := by
  constructor
  · have h := circuit_breaker_spec.1 (mkDeterministicBackoff 100 1000 0 1 9000) 5 0
      Option.none (by decide)
    refine ⟨h.1.trans ?_, h.2.1, h.2.2⟩
    norm_num [mkDeterministicBackoff]
  · exact circuit_breaker_spec.2.1 100 1000 0 9000 1 2 3 11 0 0 0 (by norm_num [mkDeterministicBackoff])

/-! Helper lemmas for the scheduler. -/

lemma wait_next_tick_eq (s : DeterministicScheduler) (now : ℚ) :
    s.wait_next_tick now
      = (max now (s.t0 + (s.k : ℚ) * s.cadence_s), { s with k := s.k + 1 }) := by
  have h : now + max 0 (s.t0 + (s.k : ℚ) * s.cadence_s - now)
      = max now (s.t0 + (s.k : ℚ) * s.cadence_s) := by
    rcases le_total now (s.t0 + (s.k : ℚ) * s.cadence_s) with h | h
    · rw [max_eq_right (sub_nonneg.mpr h), max_eq_right h]; ring
    · rw [max_eq_left (sub_nonpos.mpr h), max_eq_left h]; ring
  simp [DeterministicScheduler.wait_next_tick, DeterministicScheduler.next_tick_time, h]

lemma runTicks_wakes (nows : List ℚ) : ∀ s : DeterministicScheduler,
    (runTicks s nows).1
      = (List.enumFrom s.k nows).map (fun p => max p.2 (s.t0 + (p.1 : ℚ) * s.cadence_s)) ∧
    (runTicks s nows).2.k = s.k + nows.length := by
  induction nows with
  | nil => intro s; simp [runTicks]
  | cons n rest ih =>
    intro s
    refine ⟨?_, ?_⟩
    · simp only [runTicks, wait_next_tick_eq, List.enumFrom, List.map_cons]
      rw [(ih _).1]
    · simp only [runTicks, wait_next_tick_eq]
      rw [(ih _).2]
      simp
      omega

/-- Claim C8: for a positive cadence, the k-th `wait_next_tick` call
(k counted from 0, matching the code's "tick k occurs at t0+k*cadence")
suspends the caller until the absolute monotonic time t0 + k*cadence,
independently of how long prior iterations ran: the resume time of each
call is exactly max(entry time, t0 + k*cadence), so a long iteration
shortens or skips the sleep but never shifts the targets, and the
constructor rejects a non-positive cadence. -/
theorem scheduler_drift_free :
    (∀ (s : DeterministicScheduler) (now : ℚ),
      s.wait_next_tick now
        = (max now (s.t0 + (s.k : ℚ) * s.cadence_s), { s with k := s.k + 1 })) ∧
    (∀ tick_ms : ℤ, tick_ms ≤ 0 → ∀ now : ℚ,
      mkDeterministicScheduler tick_ms now = .error "tick_ms must be > 0") ∧
    (∀ (tick_ms : ℤ) (t0 : ℚ) (s : DeterministicScheduler),
      mkDeterministicScheduler tick_ms t0 = .ok s →
      ∀ nows : List ℚ,
        (runTicks s nows).1
          = nows.enum.map (fun p => max p.2 (t0 + (p.1 : ℚ) * ((tick_ms : ℚ) / 1000))) ∧
        (runTicks s nows).2.k = nows.length) := by
  refine ⟨wait_next_tick_eq, ?_, ?_⟩
  · intro tick_ms h now
    simp [mkDeterministicScheduler, h]
  · intro tick_ms t0 s hmk nows
    unfold mkDeterministicScheduler at hmk
    split at hmk
    · cases hmk
    · cases hmk
      have h := runTicks_wakes nows ⟨(tick_ms : ℚ) / 1000, t0, 0⟩
      exact ⟨h.1, h.2.trans (by simp)⟩

/-- Witness for C8: a 500ms scheduler entered at times 0 and 1/4s
resumes at 0s and 1/2s (the second entry is early and sleeps until its
absolute target). -/
theorem scheduler_drift_free_witness :
    (runTicks ⟨(500 : ℚ) / 1000, 0, 0⟩ [0, 1/4]).1 = [0, 1/2] :=
  ((scheduler_drift_free.2.2 500 0 ⟨(500 : ℚ) / 1000, 0, 0⟩
      (by norm_num [mkDeterministicScheduler]) [0, 1/4]).1).trans
    (by norm_num [List.enum, List.enumFrom])

/-! Helper lemmas for the rate limiter. -/

lemma allowed_char (rl : DualRateLimiter) (now : ℚ) (est : ℤ) :
    rl.allowed now est =
      if now < rl.next_allowed_time then (false, rl)
      else if ¬ (1 ≤ (rl.req.refill now).tokens) then
        (false, { rl with req := rl.req.refill now })
      else
        (decide (((max 1 est : ℤ) : ℚ) ≤ (rl.tok.refill now).tokens),
         { rl with req := rl.req.refill now, tok := rl.tok.refill now }) := by
  unfold DualRateLimiter.allowed Bucket.can_spend
  by_cases h1 : now < rl.next_allowed_time
  · simp [h1]
  · by_cases h2 : (1 : ℚ) ≤ (rl.req.refill now).tokens
    · by_cases h3 : ((max 1 est : ℤ) : ℚ) ≤ (rl.tok.refill now).tokens
      · have h3' := h3
        push_cast at h3'
        rw [max_le_iff] at h3'
        simp [h1, h2, h3, not_lt.mpr h3'.1, not_lt.mpr h3'.2, h3'.1, h3'.2]
      · have h3' := h3
        push_cast at h3'
        rw [max_le_iff, not_and_or] at h3'
        rcases h3' with h | h
        · simp [h1, h2, h3, h, not_le.mp h]
        · simp [h1, h2, h3, h, not_le.mp h]
    · simp [h1, h2]

lemma refill_capacity (b : Bucket) (now : ℚ) : (b.refill now).capacity = b.capacity := rfl

lemma refill_rate (b : Bucket) (now : ℚ) : (b.refill now).refill_per_s = b.refill_per_s := rfl

lemma refill_tokens_le_cap (b : Bucket) (now : ℚ) :
    (b.refill now).tokens ≤ b.capacity :=
  min_le_left _ _

lemma refill_tokens_ge (b : Bucket) (now : ℚ) (hrate : 0 ≤ b.refill_per_s) (amt : ℚ)
    (hc : amt ≤ b.tokens) (hcap : b.tokens ≤ b.capacity) :
    amt ≤ (b.refill now).tokens := by
  unfold Bucket.refill
  refine le_min (hc.trans hcap) (hc.trans ?_)
  exact le_add_of_nonneg_right (mul_nonneg (le_max_left _ _) hrate)

lemma bucket_spend_ok (b : Bucket) (amt now : ℚ) (h : amt ≤ (b.refill now).tokens) :
    b.spend amt now = .ok { b.refill now with tokens := (b.refill now).tokens - amt } := by
  unfold Bucket.spend
  rw [if_neg (not_lt.mpr h)]

lemma spend_eq (rl : DualRateLimiter) (now : ℚ) (est : ℤ)
    (h1 : 1 ≤ (rl.req.refill now).tokens)
    (h2 : ((max 1 est : ℤ) : ℚ) ≤ (rl.tok.refill now).tokens) :
    rl.spend now est = .ok
      { req := { rl.req.refill now with tokens := (rl.req.refill now).tokens - 1 },
        tok := { rl.tok.refill now with
                 tokens := (rl.tok.refill now).tokens - ((max 1 est : ℤ) : ℚ) },
        min_interval_s := rl.min_interval_s,
        next_allowed_time := max rl.next_allowed_time (now + rl.min_interval_s) } := by
  unfold DualRateLimiter.spend
  rw [bucket_spend_ok _ _ _ h1, bucket_spend_ok _ _ _ h2]

/-- Claim C3: `allowed(c)` returns false when now is before the
next-allowed-time, false when the lazily refilled request bucket has
less than 1.0 token, and false when the lazily refilled cost bucket has
less than `c` tokens (each refill proportional to elapsed time and
capped at capacity, as `Bucket.refill` states); it returns true exactly
when all three gates pass (against the effective cost `max 1 c`); and
after construction with rpm=2, tpm=100, min_interval=0, two consecutive
allowed+spend pairs succeed, a third immediate `allowed` returns false,
and after waiting the 30s refill period `allowed` returns true. -/
theorem allowed_gates_and_scenario :
    (∀ (rl : DualRateLimiter) (now : ℚ) (est : ℤ),
      ((rl.allowed now est).1 = true ↔
        ¬ now < rl.next_allowed_time ∧ 1 ≤ (rl.req.refill now).tokens ∧
        ((max 1 est : ℤ) : ℚ) ≤ (rl.tok.refill now).tokens) ∧
      (now < rl.next_allowed_time → (rl.allowed now est).1 = false) ∧
      ((rl.req.refill now).tokens < 1 → (rl.allowed now est).1 = false) ∧
      ((rl.tok.refill now).tokens < (est : ℚ) → (rl.allowed now est).1 = false)) ∧
    (∃ r1 r2 r3 r4 r5 : DualRateLimiter,
      (mkDualRateLimiter 2 100 0 0).allowed 0 1 = (true, r1) ∧
      r1.spend 0 1 = .ok r2 ∧
      r2.allowed 0 1 = (true, r3) ∧
      r3.spend 0 1 = .ok r4 ∧
      r4.allowed 0 1 = (false, r5) ∧
      (r5.allowed 30 1).1 = true) := by
  constructor
  · intro rl now est
    have hc := allowed_char rl now est
    refine ⟨?_, ?_, ?_, ?_⟩
    · rw [hc]
      by_cases h1 : now < rl.next_allowed_time
      · simp [h1]
      · by_cases h2 : (1 : ℚ) ≤ (rl.req.refill now).tokens
        · simp [h1, h2]
        · simp [h1, h2]
    · intro h
      rw [hc]
      simp [h]
    · intro h
      rw [hc]
      by_cases h1 : now < rl.next_allowed_time
      · simp [h1]
      · simp [h1, not_le.mpr h]
    · intro h
      rw [hc]
      by_cases h1 : now < rl.next_allowed_time
      · simp [h1]
      · by_cases h2 : (1 : ℚ) ≤ (rl.req.refill now).tokens
        · have h3 : ¬ ((max 1 est : ℤ) : ℚ) ≤ (rl.tok.refill now).tokens := by
            push_cast
            rw [max_le_iff, not_and_or]
            exact Or.inr (not_le.mpr h)
          simp [h1, h2, h3]
          exact fun _ => h
        · simp [h1, h2]
  · refine ⟨⟨⟨2, 1/30, 2, 0⟩, ⟨100, 5/3, 100, 0⟩, 0, 0⟩,
      ⟨⟨2, 1/30, 1, 0⟩, ⟨100, 5/3, 99, 0⟩, 0, 0⟩,
      ⟨⟨2, 1/30, 1, 0⟩, ⟨100, 5/3, 99, 0⟩, 0, 0⟩,
      ⟨⟨2, 1/30, 0, 0⟩, ⟨100, 5/3, 98, 0⟩, 0, 0⟩,
      ⟨⟨2, 1/30, 0, 0⟩, ⟨100, 5/3, 98, 0⟩, 0, 0⟩, ?_, ?_, ?_, ?_, ?_, ?_⟩
    · norm_num [mkDualRateLimiter, DualRateLimiter.allowed, Bucket.can_spend, Bucket.refill]
    · exact (spend_eq _ 0 1 (by norm_num [Bucket.refill])
        (by norm_num [Bucket.refill])).trans (by norm_num [Bucket.refill])
    · norm_num [DualRateLimiter.allowed, Bucket.can_spend, Bucket.refill]
    · exact (spend_eq _ 0 1 (by norm_num [Bucket.refill])
        (by norm_num [Bucket.refill])).trans (by norm_num [Bucket.refill])
    · norm_num [DualRateLimiter.allowed, Bucket.can_spend, Bucket.refill]
    · norm_num [DualRateLimiter.allowed, Bucket.can_spend, Bucket.refill]

/-- Witness for C3: the three refusal gates applied to concrete limiter
states (spacing gate not yet reached; empty request bucket; cost bucket
below the estimated cost). -/
theorem allowed_gates_witness :
    (((⟨⟨1, 0, 1, 0⟩, ⟨1, 0, 1, 0⟩, 0, 10⟩ : DualRateLimiter).allowed 0 1).1 = false) ∧
    (((⟨⟨1, 0, 0, 0⟩, ⟨1, 0, 1, 0⟩, 0, 0⟩ : DualRateLimiter).allowed 0 1).1 = false) ∧
    (((⟨⟨1, 0, 1, 0⟩, ⟨5, 0, 1, 0⟩, 0, 0⟩ : DualRateLimiter).allowed 0 3).1 = false) :=
  ⟨(allowed_gates_and_scenario.1 ⟨⟨1, 0, 1, 0⟩, ⟨1, 0, 1, 0⟩, 0, 10⟩ 0 1).2.1
     (by norm_num),
   (allowed_gates_and_scenario.1 ⟨⟨1, 0, 0, 0⟩, ⟨1, 0, 1, 0⟩, 0, 0⟩ 0 1).2.2.1
     (by norm_num [Bucket.refill]),
   (allowed_gates_and_scenario.1 ⟨⟨1, 0, 1, 0⟩, ⟨5, 0, 1, 0⟩, 0, 0⟩ 0 3).2.2.2
     (by norm_num [Bucket.refill])⟩

/-- Claim C4: if `allowed(c)` returned true at time t and `spend(c)` runs
at any t' ≥ t with no intervening operations (the spend acts on the
state the `allowed` call left behind, whose buckets were refilled at t),
then `spend` cannot reach the bucket-underflow `RuntimeError`: it
returns normally, debits 1 request token and the effective cost tokens
from the freshly refilled buckets, and sets next-allowed-time to
max(old, t'+min_interval) — at least t'+min_interval and never below its
old value. -/
theorem spend_after_allowed_safe (rl : DualRateLimiter) (t t' : ℚ) (est : ℤ)
    (hreq : 0 ≤ rl.req.refill_per_s) (htok : 0 ≤ rl.tok.refill_per_s)
    (htt : t ≤ t') (hallowed : (rl.allowed t est).1 = true) :
    ∃ rl'', ((rl.allowed t est).2).spend t' est = .ok rl'' ∧
      rl''.next_allowed_time = max rl.next_allowed_time (t' + rl.min_interval_s) ∧
      t' + rl.min_interval_s ≤ rl''.next_allowed_time ∧
      rl.next_allowed_time ≤ rl''.next_allowed_time ∧
      rl''.req.tokens = (((rl.allowed t est).2).req.refill t').tokens - 1 ∧
      rl''.tok.tokens
        = (((rl.allowed t est).2).tok.refill t').tokens - ((max 1 est : ℤ) : ℚ) := by
  have hc := allowed_char rl t est
  rw [hc] at hallowed
  by_cases h1 : t < rl.next_allowed_time
  · rw [if_pos h1] at hallowed
    exact absurd hallowed (by simp)
  rw [if_neg h1] at hallowed
  by_cases h2 : (1 : ℚ) ≤ (rl.req.refill t).tokens
  swap
  · rw [if_pos h2] at hallowed
    exact absurd hallowed (by simp)
  rw [if_neg (not_not_intro h2)] at hallowed
  simp only [decide_eq_true_eq] at hallowed
  have hst : (rl.allowed t est).2 =
      { req := rl.req.refill t, tok := rl.tok.refill t,
        min_interval_s := rl.min_interval_s,
        next_allowed_time := rl.next_allowed_time } := by
    rw [hc, if_neg h1, if_neg (not_not_intro h2)]
  have h1' : (1 : ℚ) ≤ ((rl.req.refill t).refill t').tokens := by
    apply refill_tokens_ge
    · rw [refill_rate]
      exact hreq
    · exact h2
    · rw [refill_capacity]
      exact refill_tokens_le_cap _ _
  have h2' : ((max 1 est : ℤ) : ℚ) ≤ ((rl.tok.refill t).refill t').tokens := by
    apply refill_tokens_ge
    · rw [refill_rate]
      exact htok
    · exact hallowed
    · rw [refill_capacity]
      exact refill_tokens_le_cap _ _
  rw [hst]
  exact ⟨_, spend_eq _ t' est h1' h2', rfl, le_max_right _ _, le_max_left _ _, rfl, rfl⟩

/-- Witness for C4: the guarantee applied to a freshly constructed
limiter that just admitted a request at time 0 and spends at time 0. -/
theorem spend_after_allowed_safe_witness :
    ∃ rl'', (((mkDualRateLimiter 2 100 0 0).allowed 0 1).2).spend 0 1 = .ok rl'' ∧
      rl''.next_allowed_time = max (mkDualRateLimiter 2 100 0 0).next_allowed_time
        (0 + (mkDualRateLimiter 2 100 0 0).min_interval_s) ∧
      0 + (mkDualRateLimiter 2 100 0 0).min_interval_s ≤ rl''.next_allowed_time ∧
      (mkDualRateLimiter 2 100 0 0).next_allowed_time ≤ rl''.next_allowed_time ∧
      rl''.req.tokens
        = ((((mkDualRateLimiter 2 100 0 0).allowed 0 1).2).req.refill 0).tokens - 1 ∧
      rl''.tok.tokens
        = ((((mkDualRateLimiter 2 100 0 0).allowed 0 1).2).tok.refill 0).tokens
          - ((max 1 1 : ℤ) : ℚ) :=
  spend_after_allowed_safe (mkDualRateLimiter 2 100 0 0) 0 0 1
    (by norm_num [mkDualRateLimiter]) (by norm_num [mkDualRateLimiter]) le_rfl
    (by norm_num [mkDualRateLimiter, DualRateLimiter.allowed, Bucket.can_spend,
      Bucket.refill])

/-! Helper lemmas for the decimal counter roundtrip. -/

lemma digitChar_isDigit (d : ℕ) (h : d < 10) : isDigitChar (digitChar d) = true := by
  interval_cases d <;> decide

lemma digitChar_val (d : ℕ) (h : d < 10) : charDigitVal (digitChar d) = d := by
  interval_cases d <;> decide

lemma digitChar_not_space (d : ℕ) (h : d < 10) : isPySpace (digitChar d) = false := by
  interval_cases d <;> decide

lemma natToDecimal_mem (n : ℕ) : ∀ c ∈ natToDecimal n, ∃ d, d < 10 ∧ c = digitChar d := by
  intro c hc
  unfold natToDecimal at hc
  by_cases h : n = 0
  · rw [if_pos h] at hc
    simp at hc
    exact ⟨0, by norm_num, by rw [hc]; decide⟩
  · rw [if_neg h, List.mem_reverse] at hc
    obtain ⟨d, hd, rfl⟩ := List.mem_map.mp hc
    exact ⟨d, Nat.digits_lt_base (by norm_num) hd, rfl⟩

lemma natToDecimal_ne_nil (n : ℕ) : natToDecimal n ≠ [] := by
  unfold natToDecimal
  by_cases h : n = 0
  · rw [if_pos h]
    simp
  · rw [if_neg h]
    simp only [ne_eq, List.reverse_eq_nil_iff, List.map_eq_nil_iff]
    exact Nat.digits_ne_nil_iff_ne_zero.mpr h

lemma parseNatDigits_natToDecimal (n : ℕ) : parseNatDigits (natToDecimal n) = some n := by
  unfold parseNatDigits
  rw [if_neg (by simp [List.isEmpty_iff, natToDecimal_ne_nil n])]
  rw [if_pos (by
    rw [List.all_eq_true]
    intro c hc
    obtain ⟨d, hd, rfl⟩ := natToDecimal_mem n c hc
    exact digitChar_isDigit d hd)]
  congr 1
  unfold natToDecimal
  by_cases h : n = 0
  · rw [if_pos h, h]
    decide
  · rw [if_neg h, List.map_reverse, List.reverse_reverse, List.map_map]
    have hmap : List.map (charDigitVal ∘ digitChar) (Nat.digits 10 n) = Nat.digits 10 n := by
      trans List.map id (Nat.digits 10 n)
      · apply List.map_congr_left
        intro d hd
        simp only [Function.comp_apply, id_eq]
        exact digitChar_val d (Nat.digits_lt_base (by norm_num) hd)
      · exact List.map_id _
    rw [hmap]
    exact Nat.ofDigits_digits 10 n

lemma parsePyInt_intToDecimal (k : ℤ) : parsePyInt (intToDecimal k) = some k := by
  unfold intToDecimal
  by_cases hk : k < 0
  · rw [if_pos hk]
    simp only [parsePyInt, if_pos rfl, parseNatDigits_natToDecimal]
    simp [Int.toNat_of_nonneg (show (0 : ℤ) ≤ -k by omega)]
  · rw [if_neg hk]
    obtain ⟨c, cs, hl⟩ : ∃ c cs, natToDecimal k.toNat = c :: cs := by
      cases h : natToDecimal k.toNat with
      | nil => exact absurd h (natToDecimal_ne_nil _)
      | cons c cs => exact ⟨c, cs, rfl⟩
    have hc : isDigitChar c = true := by
      obtain ⟨d, hd, rfl⟩ := natToDecimal_mem k.toNat c (by rw [hl]; exact List.mem_cons_self _ _)
      exact digitChar_isDigit d hd
    have hnd : c ≠ '-' := fun he => by rw [he] at hc; exact absurd hc (by decide)
    have hnp : c ≠ '+' := fun he => by rw [he] at hc; exact absurd hc (by decide)
    rw [hl]
    simp only [parsePyInt, if_neg hnd, if_neg hnp]
    rw [← hl, parseNatDigits_natToDecimal]
    simp [Int.toNat_of_nonneg (show (0 : ℤ) ≤ k by omega)]

lemma dropWhile_eq_self_of (p : Char → Bool) (l : List Char)
    (h : ∀ c ∈ l, p c = false) : l.dropWhile p = l := by
  cases l with
  | nil => rfl
  | cons a l =>
    rw [List.dropWhile_cons]
    simp [h a (List.mem_cons_self _ _)]

lemma intToDecimal_no_space (k : ℤ) : ∀ c ∈ intToDecimal k, isPySpace c = false := by
  intro c hc
  unfold intToDecimal at hc
  have hnat : ∀ m : ℕ, c ∈ natToDecimal m → isPySpace c = false := by
    intro m hm
    obtain ⟨d, hd, rfl⟩ := natToDecimal_mem m c hm
    exact digitChar_not_space d hd
  by_cases hk : k < 0
  · rw [if_pos hk] at hc
    rcases List.mem_cons.mp hc with rfl | hm
    · decide
    · exact hnat _ hm
  · rw [if_neg hk] at hc
    exact hnat _ hc

lemma pyStripL_eq_self (l : List Char) (h : ∀ c ∈ l, isPySpace c = false) :
    pyStripL l = l := by
  unfold pyStripL
  rw [dropWhile_eq_self_of _ _ h,
      dropWhile_eq_self_of _ _ (fun c hc => h c (List.mem_reverse.mp hc)),
      List.reverse_reverse]

lemma intToDecimal_ne_nil (k : ℤ) : intToDecimal k ≠ [] := by
  unfold intToDecimal
  by_cases hk : k < 0
  · rw [if_pos hk]
    simp
  · rw [if_neg hk]
    exact natToDecimal_ne_nil _

lemma nextId_intToDecimal (k : ℤ) : nextId (intToDecimal k) = (k + 1, intToDecimal (k + 1)) := by
  have h1 : pyStripL (intToDecimal k) = intToDecimal k :=
    pyStripL_eq_self _ (intToDecimal_no_space k)
  have h2 : (intToDecimal k).isEmpty = false := by
    simp [List.isEmpty_iff, intToDecimal_ne_nil k]
  simp only [nextId, h1, h2, Bool.false_eq_true, if_false, parsePyInt_intToDecimal,
    Option.getD_some]

lemma runEnqueues_closed (jobs : List (ℤ × String)) : ∀ (k : ℤ) (inbox : List QueueMsg),
    (runEnqueues ⟨intToDecimal k, inbox⟩ jobs).1
      = (List.range jobs.length).map (fun i : ℕ => k + 1 + (i : ℤ)) := by
  induction jobs with
  | nil => intro k inbox; rfl
  | cons j rest ih =>
    intro k inbox
    obtain ⟨now, content⟩ := j
    simp only [runEnqueues, enqueue, nextId_intToDecimal, List.length_cons,
      List.range_succ_eq_map, List.map_cons, List.map_map]
    rw [ih (k + 1)]
    congr 1
    · norm_num
    · apply List.map_congr_left
      intro i hi
      simp only [Function.comp_apply]
      push_cast
      ring

/-- Claim C9: ids assigned by `enqueue` are strictly increasing and
hence globally unique across every sequence of calls from any starting
state of the persisted files — the state is nothing but the files, so
the sequence may span process restarts, provided the counter file is
not externally modified.  Each call obtains its id from the counter
file by read-modify-write (the new file contents are exactly the
decimal rendering of the id it returned) and performs the
lock/write/flush/fsync sequence on the counter and then on the inbox
append before returning. -/
theorem enqueue_ids_strictly_increasing :
    (∀ (st : CQState) (now : ℤ) (content : String) (meta : List (String × PyVal)),
      (enqueue st now content meta).1.id = (nextId st.counter).1 ∧
      (enqueue st now content meta).2.1.counter
        = intToDecimal (enqueue st now content meta).1.id ∧
      (enqueue st now content meta).2.1.inbox
        = st.inbox ++ [(enqueue st now content meta).1] ∧
      (enqueue st now content meta).2.2
        = [.lockCounter, .writeCounter, .fsyncCounter, .unlockCounter,
           .lockInbox, .appendInbox, .fsyncInbox, .unlockInbox]) ∧
    (∀ counter : List Char, (nextId counter).2 = intToDecimal (nextId counter).1) ∧
    (∀ k : ℤ, nextId (intToDecimal k) = (k + 1, intToDecimal (k + 1))) ∧
    (∀ (st : CQState) (jobs : List (ℤ × String)),
      ((runEnqueues st jobs).1).Chain' (· < ·) ∧
      ((runEnqueues st jobs).1).Pairwise (· ≠ ·)) := by
  refine ⟨fun st now content meta => ⟨rfl, rfl, rfl, rfl⟩, fun counter => rfl,
    nextId_intToDecimal, ?_⟩
  intro st jobs
  have hpw : ((runEnqueues st jobs).1).Pairwise (· < ·) := by
    cases jobs with
    | nil => simp [runEnqueues]
    | cons j rest =>
      obtain ⟨now, content⟩ := j
      have hs : (nextId st.counter).2 = intToDecimal ((nextId st.counter).1) := rfl
      have h1 : (runEnqueues st ((now, content) :: rest)).1
          = (nextId st.counter).1 ::
            (List.range rest.length).map
              (fun i : ℕ => (nextId st.counter).1 + 1 + (i : ℤ)) := by
        simp only [runEnqueues, enqueue]
        rw [show ({ counter := (nextId st.counter).2,
                    inbox := st.inbox ++ [⟨(nextId st.counter).1, now, "user", content, []⟩] }
                  : CQState)
              = ⟨intToDecimal ((nextId st.counter).1),
                 st.inbox ++ [⟨(nextId st.counter).1, now, "user", content, []⟩]⟩ from by
              rw [hs]]
        rw [runEnqueues_closed]
      rw [h1]
      rw [List.pairwise_cons]
      constructor
      · intro b hb
        obtain ⟨i, hi, rfl⟩ := List.mem_map.mp hb
        omega
      · refine (List.pairwise_lt_range rest.length).map _ ?_
        intro a b hab
        omega
  exact ⟨hpw.chain', hpw.imp (fun h => ne_of_lt h)⟩

/-! Helper lemmas for the queue consumer. -/

lemma splitlinesGo_newline (acc rest : List Char) :
    splitlinesGo acc ('\n' :: rest) = acc.reverse :: splitlinesGo [] rest := rfl

lemma splitlinesGo_cons_other (acc : List Char) (c : Char) (rest : List Char)
    (hn : c ≠ '\n') (hr : c ≠ '\r') :
    splitlinesGo acc (c :: rest) = splitlinesGo (c :: acc) rest := by
  rw [splitlinesGo.eq_def]
  split <;> simp_all

lemma splitlinesGo_append (l : List Char) (h : ∀ c ∈ l, c ≠ '\n' ∧ c ≠ '\r') :
    ∀ acc s : List Char, splitlinesGo acc (l ++ s) = splitlinesGo (l.reverse ++ acc) s := by
  induction l with
  | nil => intro acc s; simp
  | cons c l' ih =>
    intro acc s
    have hc := h c (List.mem_cons_self _ _)
    rw [List.cons_append, splitlinesGo_cons_other acc c _ hc.1 hc.2,
        ih (fun x hx => h x (List.mem_cons_of_mem _ hx)) (c :: acc) s]
    congr 1
    simp

lemma pySplitlines_encodeLines (ls : List (List Char))
    (h : ∀ l ∈ ls, ∀ c ∈ l, c ≠ '\n' ∧ c ≠ '\r') :
    pySplitlines (encodeLines ls) = ls := by
  induction ls with
  | nil => rfl
  | cons l ls' ih =>
    have henc : encodeLines (l :: ls') = l ++ ('\n' :: encodeLines ls') := by
      simp [encodeLines]
    unfold pySplitlines at ih ⊢
    rw [henc, splitlinesGo_append l (h l (List.mem_cons_self _ _)) [] _,
        List.append_nil, splitlinesGo_newline, List.reverse_reverse,
        ih (fun x hx => h x (List.mem_cons_of_mem _ hx))]

lemma read_new_boundary {E : Type} (parse : List Char → Option E)
    (inbox add : List Char) :
    read_new parse ⟨inbox ++ add, inbox.length⟩
      = ((pySplitlines add).filterMap parse, ⟨inbox ++ add, (inbox ++ add).length⟩) := by
  unfold read_new
  simp only [List.drop_left]
  by_cases h : add.isEmpty
  · rw [if_pos h]
    rw [List.isEmpty_iff] at h
    subst h
    simp [pySplitlines, splitlinesGo]
  · rw [if_neg h]
    simp [List.length_append]

lemma runDrains_spec {E : Type} (parse : List Char → Option E) :
    ∀ (batches : List (List (List Char))) (st : QueueState),
    st.offset = st.inbox.length →
    (∀ batch ∈ batches, ∀ l ∈ batch, ∀ c ∈ l, c ≠ '\n' ∧ c ≠ '\r') →
    (runDrains parse st batches).1 = (batches.flatten).filterMap parse ∧
    (runDrains parse st batches).2.inbox = st.inbox ++ encodeLines batches.flatten ∧
    (runDrains parse st batches).2.offset = (runDrains parse st batches).2.inbox.length := by
  intro batches
  induction batches with
  | nil =>
    intro st hinv hcl
    refine ⟨rfl, by simp [runDrains, encodeLines], by simp [runDrains, hinv]⟩
  | cons batch rest ih =>
    intro st hinv hcl
    obtain ⟨inbox, offset⟩ := st
    simp only at hinv
    subst hinv
    have hb : appendLines ⟨inbox, inbox.length⟩ batch
        = ⟨inbox ++ encodeLines batch, inbox.length⟩ := rfl
    have hr : read_new parse ⟨inbox ++ encodeLines batch, inbox.length⟩
        = ((pySplitlines (encodeLines batch)).filterMap parse,
           ⟨inbox ++ encodeLines batch, (inbox ++ encodeLines batch).length⟩) :=
      read_new_boundary parse inbox (encodeLines batch)
    have hsplit : pySplitlines (encodeLines batch) = batch :=
      pySplitlines_encodeLines batch (hcl batch (List.mem_cons_self _ _))
    have ihr := ih ⟨inbox ++ encodeLines batch, (inbox ++ encodeLines batch).length⟩
      rfl (fun b hb => hcl b (List.mem_cons_of_mem _ hb))
    simp only [runDrains, hb, hr, hsplit]
    refine ⟨?_, ?_, ?_⟩
    · rw [ihr.1, List.flatten_cons, List.filterMap_append]
    · rw [ihr.2.1, List.flatten_cons]
      simp [encodeLines, List.append_assoc]
    · exact ihr.2.2

/-- Claim C1: each `read_new` call reads from the persisted byte cursor
to end-of-file, parses each newline-delimited record, skips lines the
parser rejects without failing, leaves the log untouched and advances
the cursor exactly once per call by the exact byte length consumed; and
across any sequence of calls with no concurrent writer (whole
newline-terminated records are appended only between calls), the
concatenation of returned entries equals parsing the entire inbound
log — every well-formed entry delivered exactly once — with the final
cursor at the log's byte length. -/
theorem drain_new_exactly_once {E : Type} (parse : List Char → Option E) :
    (∀ st : QueueState,
      (read_new parse st).1 = (pySplitlines (st.inbox.drop st.offset)).filterMap parse ∧
      (read_new parse st).2.inbox = st.inbox ∧
      (read_new parse st).2.offset = st.offset + (st.inbox.drop st.offset).length) ∧
    (∀ batches : List (List (List Char)),
      (∀ batch ∈ batches, ∀ l ∈ batch, ∀ c ∈ l, c ≠ '\n' ∧ c ≠ '\r') →
      (runDrains parse ⟨[], 0⟩ batches).1 = (batches.flatten).filterMap parse ∧
      (runDrains parse ⟨[], 0⟩ batches).2.inbox = encodeLines batches.flatten ∧
      (runDrains parse ⟨[], 0⟩ batches).2.offset
        = (encodeLines batches.flatten).length) := by
  constructor
  · intro st
    unfold read_new
    by_cases h : (st.inbox.drop st.offset).isEmpty
    · rw [if_pos h]
      rw [List.isEmpty_iff] at h
      rw [h]
      exact ⟨rfl, rfl, by simp⟩
    · rw [if_neg h]
      exact ⟨rfl, rfl, rfl⟩
  · intro batches hcl
    have h := runDrains_spec parse batches ⟨[], 0⟩ rfl hcl
    refine ⟨h.1, by simpa using h.2.1, ?_⟩
    rw [h.2.2, h.2.1]
    simp

/-- Witness for C1: three drains (the middle one finds no new data)
over a log whose lines alternate well-formed and malformed records
deliver exactly the two well-formed entries and leave the cursor at the
log's byte length, 6. -/
theorem drain_new_exactly_once_witness :
    (runDrains (fun l : List Char => if l = ['a'] then some 1 else Option.none)
        ⟨[], 0⟩ [[['a'], ['b']], [], [['a']]]).1 = [1, 1] ∧
    (runDrains (fun l : List Char => if l = ['a'] then some 1 else Option.none)
        ⟨[], 0⟩ [[['a'], ['b']], [], [['a']]]).2.offset = 6 := by
  have h := (drain_new_exactly_once
      (fun l : List Char => if l = ['a'] then some 1 else Option.none)).2
    [[['a'], ['b']], [], [['a']]] (by decide)
  exact ⟨h.1.trans (by decide), h.2.2.trans (by decide)⟩
